import Mathlib

/-!
# Verification of the snarkVM R1CS constraint-system core

Shallow embedding of `circuit/environment/src/helpers/r1cs.rs` (the `R1CS`
aggregator) together with the collaborator types it uses (`Variable`,
`Constraint`, `LookupConstraint`, `LookupTable`, scope `Counter`), which are
declared outside the shown source and are therefore modelled from the spec.

Rust `u64` counters are modelled as `Nat`: every counter in this core is the
length of a list grown one push at a time (or a sum of such lengths), so the
`u64` range is never exhausted in any realizable synthesis pass.
-/

namespace Snarkvm

/-- Modelled from the spec: `Variable` (declared outside the shown source) is an
identity-bearing handle to a field element, tagged as Constant, Public (with a
monotonically assigned index) or Private (with its own index). The value behind
a variable is immutable once created. -/
inductive Variable (F : Type) where
  | Constant : F → Variable F
  | Public : Nat → F → Variable F
  | Private : Nat → F → Variable F
deriving DecidableEq

variable {F : Type}

/-- The field element carried by a variable. -/
def Variable.value : Variable F → F
  | .Constant v => v
  | .Public _ v => v
  | .Private _ v => v

/-- Modelled from the spec: a linear combination (declared outside the shown
source) is a mapping from `Variable` to coefficient, with unique keys and
order-insensitive evaluation; modelled as a list of (variable, coefficient)
terms. -/
structure LinearCombination (F : Type) where
  terms : List (Variable F × F)
deriving DecidableEq

/-- Evaluation of a linear combination under the variables' current values. -/
def LinearCombination.eval [Field F] (lc : LinearCombination F) : F :=
  (lc.terms.map (fun t => t.2 * t.1.value)).sum

/-- Modelled from the spec: the count of non-zero-coefficient terms, a pure
function of the combination's structure. -/
def LinearCombination.num_nonzeros [Zero F] [DecidableEq F] (lc : LinearCombination F) : Nat :=
  (lc.terms.filter (fun t => decide (t.2 ≠ 0))).length

/-- Modelled from the spec: `Constraint` (declared outside the shown source) is
an ordered triple of linear combinations (A, B, C) asserting
`(A·x)·(B·x) = (C·x)`. -/
structure Constraint (F : Type) where
  a : LinearCombination F
  b : LinearCombination F
  c : LinearCombination F
deriving DecidableEq

/-- The triple of nonzero counts of A, B, C, used for cost accounting. -/
def Constraint.num_nonzeros [Zero F] [DecidableEq F] (con : Constraint F) : Nat × Nat × Nat :=
  (con.a.num_nonzeros, con.b.num_nonzeros, con.c.num_nonzeros)

/-- Modelled from the spec: a constraint is satisfied when it evaluates to a
true multiplicative identity under the variables' current values. -/
def Constraint.is_satisfied [Field F] [DecidableEq F] (con : Constraint F) : Bool :=
  decide (con.a.eval * con.b.eval = con.c.eval)

/-- Modelled from the spec: `LookupTable` (declared outside the shown source)
is an externally-defined set of valid row tuples; this core only stores tables,
it never constructs or validates their contents. -/
structure LookupTable (F : Type) where
  rows : List (F × F × F)
deriving DecidableEq

/-- Modelled from the spec: `LookupConstraint` (declared outside the shown
source) binds selected variables, via linear combinations, to a lookup-table
reference; it carries its own nonzero triple computed analogously to
`Constraint`. -/
structure LookupConstraint (F : Type) where
  a : LinearCombination F
  b : LinearCombination F
  c : LinearCombination F
  table_index : Nat
deriving DecidableEq

/-- The triple of nonzero counts of a lookup constraint, for cost accounting. -/
def LookupConstraint.num_nonzeros [Zero F] [DecidableEq F] (con : LookupConstraint F) : Nat × Nat × Nat :=
  (con.a.num_nonzeros, con.b.num_nonzeros, con.c.num_nonzeros)

/-- Componentwise addition of nonzero triples. -/
def addTriple (x y : Nat × Nat × Nat) : Nat × Nat × Nat :=
  (x.1 + y.1, x.2.1 + y.2.1, x.2.2 + y.2.2)

/-- Modelled from the spec: one accounting frame of the scope `Counter`
(declared outside the shown source): a named unit holding the counts of
constants, public and private variables, the constraints and lookup constraints
recorded while the frame is active, and the scope-local nonzero triple. -/
structure CounterFrame (F : Type) where
  name : String
  constants : Nat
  publics : Nat
  privates : Nat
  constraints : List (Constraint F)
  lookup_constraints : List (LookupConstraint F)
  nonzeros : Nat × Nat × Nat

/-- A fresh accounting frame with the given name and all tallies empty. -/
def CounterFrame.init (name : String) : CounterFrame F :=
  { name := name, constants := 0, publics := 0, privates := 0,
    constraints := [], lookup_constraints := [], nonzeros := (0, 0, 0) }

/-- Modelled from the spec: the scope `Counter` (declared outside the shown
source) is a stack of named accounting frames over an initial base frame; the
currently active frame is the top of the stack, or the base frame when no scope
has been pushed. -/
structure Counter (F : Type) where
  base : CounterFrame F
  stack : List (CounterFrame F)

/-- The initial counter: just the unnamed base frame. -/
def Counter.init : Counter F :=
  { base := CounterFrame.init "", stack := [] }

/-- Applies an update to the currently active frame. -/
def Counter.mapActive (f : CounterFrame F → CounterFrame F) (c : Counter F) : Counter F :=
  match c.stack with
  | [] => { c with base := f c.base }
  | top :: rest => { c with stack := f top :: rest }

/-- Modelled from the spec: `push_scope` appends a new frame with the given
name; per the spec, only `pop_scope` can fail, so push always succeeds. -/
def Counter.push (c : Counter F) (name : String) : Counter F × Except String Unit :=
  ({ c with stack := CounterFrame.init name :: c.stack }, Except.ok ())

/-- Modelled from the spec: popping a name that does not match the innermost
active frame's name is a scope-mismatch error, and on error nothing is
modified; on success the popped frame's tallies are discarded (they were
already reflected in the global aggregates at enforcement time). -/
def Counter.pop (c : Counter F) (name : String) : Counter F × Except String Unit :=
  match c.stack with
  | [] => (c, Except.error "Mismatching scope")
  | top :: rest =>
    if top.name = name then ({ c with stack := rest }, Except.ok ())
    else (c, Except.error "Mismatching scope")

/-- Modelled from the spec: increments the constant tally of the active frame. -/
def Counter.increment_constant (c : Counter F) : Counter F :=
  c.mapActive (fun fr => { fr with constants := fr.constants + 1 })

/-- Modelled from the spec: increments the public tally of the active frame. -/
def Counter.increment_public (c : Counter F) : Counter F :=
  c.mapActive (fun fr => { fr with publics := fr.publics + 1 })

/-- Modelled from the spec: increments the private tally of the active frame. -/
def Counter.increment_private (c : Counter F) : Counter F :=
  c.mapActive (fun fr => { fr with privates := fr.privates + 1 })

/-- Modelled from the spec: records a constraint in the active frame and adds
its nonzero triple to the scope-local aggregate. -/
def Counter.add_constraint [Zero F] [DecidableEq F] (c : Counter F) (con : Constraint F) : Counter F :=
  c.mapActive (fun fr =>
    { fr with constraints := fr.constraints ++ [con],
              nonzeros := addTriple fr.nonzeros con.num_nonzeros })

/-- Modelled from the spec: records a lookup constraint in the active frame and
adds its nonzero triple to the scope-local aggregate. -/
def Counter.add_lookup_constraint [Zero F] [DecidableEq F] (c : Counter F)
    (con : LookupConstraint F) : Counter F :=
  c.mapActive (fun fr =>
    { fr with lookup_constraints := fr.lookup_constraints ++ [con],
              nonzeros := addTriple fr.nonzeros con.num_nonzeros })

/-- The `R1CS` aggregator of `circuit/environment/src/helpers/r1cs.rs`: owns
the constants, public and private variables, the constraints and lookup
constraints, the scope counter, the lookup tables, and the running global
nonzero triple. Rust's `&mut self` methods are modelled by explicit state
passing. -/
structure R1CS (F : Type) where
  constants : List (Variable F)
  public : List (Variable F)
  «private» : List (Variable F)
  constraints : List (Constraint F)
  lookup_constraints : List (LookupConstraint F)
  counter : Counter F
  tables : List (LookupTable F)
  nonzeros : Nat × Nat × Nat

/-- Source `R1CS::new`: a new instance of a constraint system, empty except for the
single public variable `Public(0, one)`. -/
def R1CS.new [One F] : R1CS F :=
  { constants := []
    public := [Variable.Public 0 1]
    «private» := []
    constraints := []
    lookup_constraints := []
    counter := Counter.init
    tables := []
    nonzeros := (0, 0, 0) }

/-- Source `R1CS::add_lookup_table`: pushes a table onto `tables`. -/
def R1CS.add_lookup_table (s : R1CS F) (table : LookupTable F) : R1CS F :=
  { s with tables := s.tables ++ [table] }

/-- Source `R1CS::push_scope`: appends the given scope, delegating to the counter. -/
def R1CS.push_scope (s : R1CS F) (name : String) : R1CS F × Except String Unit :=
  let (c, r) := s.counter.push name
  ({ s with counter := c }, r)

/-- Source `R1CS::pop_scope`: removes the given scope, delegating to the counter. -/
def R1CS.pop_scope (s : R1CS F) (name : String) : R1CS F × Except String Unit :=
  let (c, r) := s.counter.pop name
  ({ s with counter := c }, r)

/-- Source `R1CS::new_constant`: returns a new constant with the given value,
appending it to `constants` and incrementing the scope counter. -/
def R1CS.new_constant (s : R1CS F) (value : F) : Variable F × R1CS F :=
  let x := Variable.Constant value
  (x, { s with constants := s.constants ++ [x],
               counter := s.counter.increment_constant })

/-- Source `R1CS::new_public`: returns a new public variable with the given value and
the next public index, appending it to `public` and incrementing the scope
counter. -/
def R1CS.new_public (s : R1CS F) (value : F) : Variable F × R1CS F :=
  let x := Variable.Public s.public.length value
  (x, { s with public := s.public ++ [x],
               counter := s.counter.increment_public })

/-- Source `R1CS::new_private`: returns a new private variable with the given value
and the next private index, appending it to `private` and incrementing the
scope counter. -/
def R1CS.new_private (s : R1CS F) (value : F) : Variable F × R1CS F :=
  let x := Variable.Private s.«private».length value
  (x, { s with «private» := s.«private» ++ [x],
               counter := s.counter.increment_private })

/-- Source `R1CS::enforce`: adds one constraint enforcing `(A * B) == C`, adding its
nonzero triple to the global aggregate, appending it to `constraints`, and
forwarding it to the scope counter. -/
def R1CS.enforce [Zero F] [DecidableEq F] (s : R1CS F) (constraint : Constraint F) : R1CS F :=
  { s with nonzeros := addTriple s.nonzeros constraint.num_nonzeros,
           constraints := s.constraints ++ [constraint],
           counter := s.counter.add_constraint constraint }

/-- Source `R1CS::enforce_lookup`: adds one lookup constraint, adding its nonzero
triple to the global aggregate, appending it to `lookup_constraints`, and
forwarding it to the scope counter. -/
def R1CS.enforce_lookup [Zero F] [DecidableEq F] (s : R1CS F) (constraint : LookupConstraint F) : R1CS F :=
  { s with nonzeros := addTriple s.nonzeros constraint.num_nonzeros,
           lookup_constraints := s.lookup_constraints ++ [constraint],
           counter := s.counter.add_lookup_constraint constraint }

/-- Source `R1CS::is_satisfied`: `true` if all constraints in the environment are
satisfied. -/
def R1CS.is_satisfied [Field F] [DecidableEq F] (s : R1CS F) : Bool :=
  s.constraints.all (fun constraint => constraint.is_satisfied)

/-- Source `R1CS::num_constants`: the number of constants in the constraint system. -/
def R1CS.num_constants (s : R1CS F) : Nat :=
  s.constants.length

/-- Source `R1CS::num_public`: the number of public variables in the constraint
system. -/
def R1CS.num_public (s : R1CS F) : Nat :=
  s.public.length

/-- Source `R1CS::num_private`: the number of private variables in the constraint
system. -/
def R1CS.num_private (s : R1CS F) : Nat :=
  s.«private».length

/-- Source `R1CS::num_constraints`: the number of constraints in the constraint
system. -/
def R1CS.num_constraints (s : R1CS F) : Nat :=
  s.constraints.length

/-- Source `R1CS::num_lookup_constraints`: the number of lookup constraints in the
constraint system. -/
def R1CS.num_lookup_constraints (s : R1CS F) : Nat :=
  s.lookup_constraints.length

/-- Source `R1CS::num_nonzeros`: the running global nonzero triple. -/
def R1CS.num_nonzeros (s : R1CS F) : Nat × Nat × Nat :=
  s.nonzeros

/-- Source `R1CS::to_public_variables`: the public variables, in order. -/
def R1CS.to_public_variables (s : R1CS F) : List (Variable F) :=
  s.public

/-- Source `R1CS::to_private_variables`: the private variables, in order. -/
def R1CS.to_private_variables (s : R1CS F) : List (Variable F) :=
  s.«private»

/-- Source `R1CS::to_constraints`: the constraints, in order. -/
def R1CS.to_constraints (s : R1CS F) : List (Constraint F) :=
  s.constraints

/-- Source `R1CS::to_lookup_constraints`: the lookup constraints, in order. -/
def R1CS.to_lookup_constraints (s : R1CS F) : List (LookupConstraint F) :=
  s.lookup_constraints

/-- The `Display` implementation for `R1CS`: starting from the empty string,
appends the string form of each constraint, then of each lookup constraint,
then a line break. The string forms of the individual constraints come from
`Display` implementations declared outside the shown source, so they are taken
as parameters `fC` and `fL`. -/
def R1CS.display (s : R1CS F) (fC : Constraint F → String)
    (fL : LookupConstraint F → String) : String :=
  (s.to_lookup_constraints.foldl (fun out con => out ++ fL con)
    (s.to_constraints.foldl (fun out con => out ++ fC con) "")) ++ "\n"

/-- Performs one `new_public` call per value in the list, returning the final
state and the returned variables in call order. -/
def R1CS.run_new_publics : R1CS F → List F → R1CS F × List (Variable F)
  | s, [] => (s, [])
  | s, v :: vs =>
    let (x, s1) := s.new_public v
    let (s2, xs) := R1CS.run_new_publics s1 vs
    (s2, x :: xs)

/-- Performs one `new_private` call per value in the list, returning the final
state and the returned variables in call order. -/
def R1CS.run_new_privates : R1CS F → List F → R1CS F × List (Variable F)
  | s, [] => (s, [])
  | s, v :: vs =>
    let (x, s1) := s.new_private v
    let (s2, xs) := R1CS.run_new_privates s1 vs
    (s2, x :: xs)

/-- An enforcement call: either a plain `enforce` or an `enforce_lookup`. -/
inductive EnforceOp (F : Type) where
  | plain : Constraint F → EnforceOp F
  | lookup : LookupConstraint F → EnforceOp F

/-- The nonzero triple contributed by an enforcement call. -/
def EnforceOp.nnz [Zero F] [DecidableEq F] : EnforceOp F → Nat × Nat × Nat
  | .plain con => con.num_nonzeros
  | .lookup con => con.num_nonzeros

/-- Applies one enforcement call to the constraint system. -/
def EnforceOp.apply [Zero F] [DecidableEq F] (s : R1CS F) : EnforceOp F → R1CS F
  | .plain con => s.enforce con
  | .lookup con => s.enforce_lookup con

/-- Runs a list of interleaved enforcement calls, in order. -/
def runEnforceOps [Zero F] [DecidableEq F] : R1CS F → List (EnforceOp F) → R1CS F
  | s, [] => s
  | s, op :: ops => runEnforceOps (op.apply s) ops

/-- The componentwise sum of a list of nonzero triples. -/
def sumTriples : List (Nat × Nat × Nat) → Nat × Nat × Nat
  | [] => (0, 0, 0)
  | t :: ts => addTriple t (sumTriples ts)

/-- Any one of the mutating operations of the constraint-system interface. -/
inductive Op (F : Type) where
  | newConstant : F → Op F
  | newPublic : F → Op F
  | newPrivate : F → Op F
  | enforceOne : Constraint F → Op F
  | enforceLookupOne : LookupConstraint F → Op F
  | addLookupTable : LookupTable F → Op F
  | pushScope : String → Op F
  | popScope : String → Op F

/-- Applies one mutating operation, keeping the (possibly unchanged) state and
discarding the returned variable or result. -/
def Op.apply [Zero F] [DecidableEq F] (s : R1CS F) : Op F → R1CS F
  | .newConstant v => (s.new_constant v).2
  | .newPublic v => (s.new_public v).2
  | .newPrivate v => (s.new_private v).2
  | .enforceOne con => s.enforce con
  | .enforceLookupOne con => s.enforce_lookup con
  | .addLookupTable t => s.add_lookup_table t
  | .pushScope n => (s.push_scope n).1
  | .popScope n => (s.pop_scope n).1

/-- Whether an operation is a plain `enforce` call. -/
def Op.isEnforce : Op F → Bool
  | .enforceOne _ => true
  | _ => false

/-- Runs a list of mutating operations, in order. -/
def runOps [Zero F] [DecidableEq F] : R1CS F → List (Op F) → R1CS F
  | s, [] => s
  | s, op :: ops => runOps (op.apply s) ops

instance : Fact (Nat.Prime 5) := ⟨by norm_num⟩

/-- A concrete prime field used to instantiate the generic theorems. -/
abbrev Fp : Type := ZMod 5

/-- A sample linear combination over `Fp`, evaluating to `1`. -/
def exLC : LinearCombination Fp :=
  ⟨[(Variable.Public 0 1, 1)]⟩

/-- A sample satisfied constraint over `Fp`, with nonzero triple `(1, 1, 1)`. -/
def exCon : Constraint Fp :=
  ⟨exLC, exLC, exLC⟩

/-- A sample lookup constraint over `Fp`. -/
def exLk : LookupConstraint Fp :=
  ⟨exLC, exLC, exLC, 0⟩

/-- A sample lookup table over `Fp`. -/
def exTable : LookupTable Fp :=
  ⟨[(1, 1, 1)]⟩

/-- C3: a freshly created constraint system has `num_public() == 1`, its sole
public variable is `Public` with index 0 and value one, and it has zero
constants, zero private variables, zero constraints, zero lookup constraints,
and nonzero triple `(0, 0, 0)`. -/
theorem new_initial_state [Field F] [DecidableEq F] :
    (R1CS.new : R1CS F).num_public = 1
    ∧ (R1CS.new : R1CS F).to_public_variables = [Variable.Public 0 1]
    ∧ (R1CS.new : R1CS F).num_constants = 0
    ∧ (R1CS.new : R1CS F).num_private = 0
    ∧ (R1CS.new : R1CS F).num_constraints = 0
    ∧ (R1CS.new : R1CS F).num_lookup_constraints = 0
    ∧ (R1CS.new : R1CS F).num_nonzeros = (0, 0, 0) :=
  ⟨rfl, rfl, rfl, rfl, rfl, rfl, rfl⟩

/-- Evaluation of `new_initial_state` at the concrete field `Fp`. -/
theorem new_initial_state_inst :
    (R1CS.new : R1CS Fp).num_public = 1
    ∧ (R1CS.new : R1CS Fp).to_public_variables = [Variable.Public 0 1]
    ∧ (R1CS.new : R1CS Fp).num_nonzeros = (0, 0, 0) :=
  ⟨(new_initial_state (F := Fp)).1, (new_initial_state (F := Fp)).2.1,
    (new_initial_state (F := Fp)).2.2.2.2.2.2⟩

/-- C2: `enforce(c)` increases `num_constraints()` by exactly 1, increases
`num_nonzeros()` component-wise by exactly `c.num_nonzeros()`, and appends `c`
to the sequence returned by `to_constraints()`. -/
theorem enforce_effect [Field F] [DecidableEq F] (s : R1CS F) (c : Constraint F) :
    (s.enforce c).num_constraints = s.num_constraints + 1
    ∧ (s.enforce c).num_nonzeros =
        (s.num_nonzeros.1 + c.num_nonzeros.1,
         s.num_nonzeros.2.1 + c.num_nonzeros.2.1,
         s.num_nonzeros.2.2 + c.num_nonzeros.2.2)
    ∧ (s.enforce c).to_constraints = s.to_constraints ++ [c] := by
  refine ⟨?_, rfl, rfl⟩
  simp [R1CS.enforce, R1CS.num_constraints]

/-- Evaluation of `enforce_effect` at a concrete system and constraint. -/
theorem enforce_effect_inst :
    ((R1CS.new : R1CS Fp).enforce exCon).num_constraints
        = (R1CS.new : R1CS Fp).num_constraints + 1
    ∧ ((R1CS.new : R1CS Fp).enforce exCon).num_nonzeros =
        ((R1CS.new : R1CS Fp).num_nonzeros.1 + exCon.num_nonzeros.1,
         (R1CS.new : R1CS Fp).num_nonzeros.2.1 + exCon.num_nonzeros.2.1,
         (R1CS.new : R1CS Fp).num_nonzeros.2.2 + exCon.num_nonzeros.2.2)
    ∧ ((R1CS.new : R1CS Fp).enforce exCon).to_constraints
        = (R1CS.new : R1CS Fp).to_constraints ++ [exCon] :=
  enforce_effect R1CS.new exCon

/-- C6: `enforce_lookup(lc)` increases `num_lookup_constraints()` by exactly 1,
leaves `num_constraints()` unchanged, appends to the lookup-constraint
sequence, and leaves the plain-constraint, variable, and table sequences
untouched. -/
theorem enforce_lookup_effect [Field F] [DecidableEq F] (s : R1CS F) (lc : LookupConstraint F) :
    (s.enforce_lookup lc).num_lookup_constraints = s.num_lookup_constraints + 1
    ∧ (s.enforce_lookup lc).num_constraints = s.num_constraints
    ∧ (s.enforce_lookup lc).to_lookup_constraints = s.to_lookup_constraints ++ [lc]
    ∧ (s.enforce_lookup lc).to_constraints = s.to_constraints
    ∧ (s.enforce_lookup lc).constants = s.constants
    ∧ (s.enforce_lookup lc).public = s.public
    ∧ (s.enforce_lookup lc).«private» = s.«private»
    ∧ (s.enforce_lookup lc).tables = s.tables := by
  refine ⟨?_, rfl, rfl, rfl, rfl, rfl, rfl, rfl⟩
  simp [R1CS.enforce_lookup, R1CS.num_lookup_constraints]

/-- Evaluation of `enforce_lookup_effect` at a concrete system and lookup
constraint. -/
theorem enforce_lookup_effect_inst :
    ((R1CS.new : R1CS Fp).enforce_lookup exLk).num_lookup_constraints
        = (R1CS.new : R1CS Fp).num_lookup_constraints + 1
    ∧ ((R1CS.new : R1CS Fp).enforce_lookup exLk).num_constraints
        = (R1CS.new : R1CS Fp).num_constraints :=
  ⟨(enforce_lookup_effect R1CS.new exLk).1, (enforce_lookup_effect R1CS.new exLk).2.1⟩

/-- C1: `is_satisfied()` is true iff every enforced plain constraint evaluates
to a true multiplicative identity `(A·x)(B·x) = (C·x)` under the variables'
current values, and enforcing a lookup constraint never changes the result. -/
theorem is_satisfied_iff [Field F] [DecidableEq F] (s : R1CS F) :
    (s.is_satisfied = true ↔
      ∀ con ∈ s.to_constraints, con.a.eval * con.b.eval = con.c.eval)
    ∧ ∀ lc : LookupConstraint F, (s.enforce_lookup lc).is_satisfied = s.is_satisfied := by
  constructor
  · simp [R1CS.is_satisfied, Constraint.is_satisfied, R1CS.to_constraints]
  · intro lc
    rfl

/-- Evaluation of `is_satisfied_iff` at a concrete system. -/
theorem is_satisfied_iff_inst :
    ((R1CS.new : R1CS Fp).enforce exCon).is_satisfied = true :=
  (is_satisfied_iff ((R1CS.new : R1CS Fp).enforce exCon)).1.mpr (by decide)

/-- Any operation other than a plain `enforce` leaves the plain-constraint
sequence untouched. -/
theorem quiet_op_constraints [Field F] [DecidableEq F] (op : Op F) (s : R1CS F)
    (h : op.isEnforce = false) : (op.apply s).constraints = s.constraints := by
  cases op <;> simp_all [Op.apply, Op.isEnforce, R1CS.new_constant, R1CS.new_public,
    R1CS.new_private, R1CS.enforce_lookup, R1CS.add_lookup_table, R1CS.push_scope,
    R1CS.pop_scope]

/-- C10: on a system whose plain-constraint sequence is empty — in particular a
fresh system, or one mutated only by allocations, lookup operations and scope
operations — `is_satisfied()` returns true vacuously. -/
theorem is_satisfied_vacuous [Field F] [DecidableEq F] :
    (∀ s : R1CS F, s.to_constraints = [] → s.is_satisfied = true)
    ∧ (∀ ops : List (Op F), (∀ op ∈ ops, op.isEnforce = false) →
        (runOps R1CS.new ops).is_satisfied = true) := by
  have hbase : ∀ s : R1CS F, s.to_constraints = [] → s.is_satisfied = true := by
    intro s h
    have h' : s.constraints = [] := h
    unfold R1CS.is_satisfied
    rw [h']
    rfl
  refine ⟨hbase, ?_⟩
  have hpres : ∀ (ops : List (Op F)) (s : R1CS F), (∀ op ∈ ops, op.isEnforce = false) →
      (runOps s ops).constraints = s.constraints := by
    intro ops
    induction ops with
    | nil => intro s _; rfl
    | cons op ops ih =>
      intro s h
      have h1 : op.isEnforce = false := h op (List.mem_cons_self _ _)
      have h2 : ∀ o ∈ ops, o.isEnforce = false := fun o ho => h o (List.mem_cons_of_mem _ ho)
      calc (runOps s (op :: ops)).constraints
          = (runOps (op.apply s) ops).constraints := rfl
        _ = (op.apply s).constraints := ih (op.apply s) h2
        _ = s.constraints := quiet_op_constraints op s h1
  intro ops h
  exact hbase _ (hpres ops R1CS.new h)

/-- Evaluation of `is_satisfied_vacuous` at a fresh system and at a concrete
run of non-enforcing operations. -/
theorem is_satisfied_vacuous_inst :
    (R1CS.new : R1CS Fp).is_satisfied = true
    ∧ (runOps (R1CS.new : R1CS Fp)
        [Op.newPublic 2, Op.enforceLookupOne exLk, Op.pushScope "a", Op.popScope "a",
         Op.addLookupTable exTable]).is_satisfied = true :=
  ⟨is_satisfied_vacuous.1 R1CS.new rfl,
   is_satisfied_vacuous.2 _ (by decide)⟩

/-- C5: `pop_scope(name)` with a name different from the innermost active scope
frame's name returns a scope-mismatch error and leaves the whole state
unchanged; `push_scope` (the only other fallible-typed operation) always
succeeds, so the mismatch on `pop_scope` is the only error source. -/
theorem pop_scope_mismatch (F : Type) :
    (∀ (s : R1CS F) (n : String) (top : CounterFrame F) (rest : List (CounterFrame F)),
        s.counter.stack = top :: rest → top.name ≠ n →
        s.pop_scope n = (s, Except.error "Mismatching scope"))
    ∧ (∀ (s : R1CS F) (n : String), (s.push_scope n).2 = Except.ok ()) := by
  constructor
  · intro s n top rest hst hne
    have hpop : s.counter.pop n = (s.counter, Except.error "Mismatching scope") := by
      unfold Counter.pop
      rw [hst]
      simp [hne]
    simp [R1CS.pop_scope, hpop]
  · intro s n
    rfl

/-- Evaluation of `pop_scope_mismatch`: popping `"wrong"` right after pushing
`"a"` on a fresh system errors and changes nothing. -/
theorem pop_scope_mismatch_inst :
    (((R1CS.new : R1CS Fp).push_scope "a").1.pop_scope "wrong"
        = (((R1CS.new : R1CS Fp).push_scope "a").1, Except.error "Mismatching scope"))
    ∧ (((R1CS.new : R1CS Fp).push_scope "a").2 = Except.ok ()) :=
  ⟨(pop_scope_mismatch Fp).1 _ "wrong" (CounterFrame.init "a") [] rfl (by decide),
   (pop_scope_mismatch Fp).2 _ "a"⟩

/-- C7: every operation of the interface only ever appends to the constants,
public, private, constraints, lookup-constraints and tables sequences, so all
the global counts and each component of the nonzero triple never decrease. -/
theorem op_monotone [Field F] [DecidableEq F] (op : Op F) (s : R1CS F) :
    (∃ t, (op.apply s).constants = s.constants ++ t)
    ∧ (∃ t, (op.apply s).public = s.public ++ t)
    ∧ (∃ t, (op.apply s).«private» = s.«private» ++ t)
    ∧ (∃ t, (op.apply s).constraints = s.constraints ++ t)
    ∧ (∃ t, (op.apply s).lookup_constraints = s.lookup_constraints ++ t)
    ∧ (∃ t, (op.apply s).tables = s.tables ++ t)
    ∧ s.num_constants ≤ (op.apply s).num_constants
    ∧ s.num_public ≤ (op.apply s).num_public
    ∧ s.num_private ≤ (op.apply s).num_private
    ∧ s.num_constraints ≤ (op.apply s).num_constraints
    ∧ s.num_lookup_constraints ≤ (op.apply s).num_lookup_constraints
    ∧ s.num_nonzeros.1 ≤ (op.apply s).num_nonzeros.1
    ∧ s.num_nonzeros.2.1 ≤ (op.apply s).num_nonzeros.2.1
    ∧ s.num_nonzeros.2.2 ≤ (op.apply s).num_nonzeros.2.2 := by
  cases op with
  | newConstant v =>
    refine ⟨⟨[Variable.Constant v], rfl⟩, ⟨[], by simp [Op.apply, R1CS.new_constant]⟩,
      ⟨[], by simp [Op.apply, R1CS.new_constant]⟩, ⟨[], by simp [Op.apply, R1CS.new_constant]⟩,
      ⟨[], by simp [Op.apply, R1CS.new_constant]⟩, ⟨[], by simp [Op.apply, R1CS.new_constant]⟩,
      ?_, ?_, ?_, ?_, ?_, ?_, ?_, ?_⟩ <;>
    simp [Op.apply, R1CS.new_constant, R1CS.num_constants, R1CS.num_public, R1CS.num_private,
      R1CS.num_constraints, R1CS.num_lookup_constraints, R1CS.num_nonzeros]
  | newPublic v =>
    refine ⟨⟨[], by simp [Op.apply, R1CS.new_public]⟩, ⟨[Variable.Public s.public.length v], rfl⟩,
      ⟨[], by simp [Op.apply, R1CS.new_public]⟩, ⟨[], by simp [Op.apply, R1CS.new_public]⟩,
      ⟨[], by simp [Op.apply, R1CS.new_public]⟩, ⟨[], by simp [Op.apply, R1CS.new_public]⟩,
      ?_, ?_, ?_, ?_, ?_, ?_, ?_, ?_⟩ <;>
    simp [Op.apply, R1CS.new_public, R1CS.num_constants, R1CS.num_public, R1CS.num_private,
      R1CS.num_constraints, R1CS.num_lookup_constraints, R1CS.num_nonzeros]
  | newPrivate v =>
    refine ⟨⟨[], by simp [Op.apply, R1CS.new_private]⟩, ⟨[], by simp [Op.apply, R1CS.new_private]⟩,
      ⟨[Variable.Private s.«private».length v], rfl⟩, ⟨[], by simp [Op.apply, R1CS.new_private]⟩,
      ⟨[], by simp [Op.apply, R1CS.new_private]⟩, ⟨[], by simp [Op.apply, R1CS.new_private]⟩,
      ?_, ?_, ?_, ?_, ?_, ?_, ?_, ?_⟩ <;>
    simp [Op.apply, R1CS.new_private, R1CS.num_constants, R1CS.num_public, R1CS.num_private,
      R1CS.num_constraints, R1CS.num_lookup_constraints, R1CS.num_nonzeros]
  | enforceOne c =>
    refine ⟨⟨[], by simp [Op.apply, R1CS.enforce]⟩, ⟨[], by simp [Op.apply, R1CS.enforce]⟩,
      ⟨[], by simp [Op.apply, R1CS.enforce]⟩, ⟨[c], rfl⟩,
      ⟨[], by simp [Op.apply, R1CS.enforce]⟩, ⟨[], by simp [Op.apply, R1CS.enforce]⟩,
      ?_, ?_, ?_, ?_, ?_, ?_, ?_, ?_⟩ <;>
    simp [Op.apply, R1CS.enforce, R1CS.num_constants, R1CS.num_public, R1CS.num_private,
      R1CS.num_constraints, R1CS.num_lookup_constraints, R1CS.num_nonzeros, addTriple]
  | enforceLookupOne lc =>
    refine ⟨⟨[], by simp [Op.apply, R1CS.enforce_lookup]⟩,
      ⟨[], by simp [Op.apply, R1CS.enforce_lookup]⟩,
      ⟨[], by simp [Op.apply, R1CS.enforce_lookup]⟩,
      ⟨[], by simp [Op.apply, R1CS.enforce_lookup]⟩, ⟨[lc], rfl⟩,
      ⟨[], by simp [Op.apply, R1CS.enforce_lookup]⟩,
      ?_, ?_, ?_, ?_, ?_, ?_, ?_, ?_⟩ <;>
    simp [Op.apply, R1CS.enforce_lookup, R1CS.num_constants, R1CS.num_public, R1CS.num_private,
      R1CS.num_constraints, R1CS.num_lookup_constraints, R1CS.num_nonzeros, addTriple]
  | addLookupTable t =>
    refine ⟨⟨[], by simp [Op.apply, R1CS.add_lookup_table]⟩,
      ⟨[], by simp [Op.apply, R1CS.add_lookup_table]⟩,
      ⟨[], by simp [Op.apply, R1CS.add_lookup_table]⟩,
      ⟨[], by simp [Op.apply, R1CS.add_lookup_table]⟩,
      ⟨[], by simp [Op.apply, R1CS.add_lookup_table]⟩, ⟨[t], rfl⟩,
      ?_, ?_, ?_, ?_, ?_, ?_, ?_, ?_⟩ <;>
    simp [Op.apply, R1CS.add_lookup_table, R1CS.num_constants, R1CS.num_public, R1CS.num_private,
      R1CS.num_constraints, R1CS.num_lookup_constraints, R1CS.num_nonzeros]
  | pushScope n =>
    refine ⟨⟨[], by simp [Op.apply, R1CS.push_scope, Counter.push]⟩,
      ⟨[], by simp [Op.apply, R1CS.push_scope, Counter.push]⟩,
      ⟨[], by simp [Op.apply, R1CS.push_scope, Counter.push]⟩,
      ⟨[], by simp [Op.apply, R1CS.push_scope, Counter.push]⟩,
      ⟨[], by simp [Op.apply, R1CS.push_scope, Counter.push]⟩,
      ⟨[], by simp [Op.apply, R1CS.push_scope, Counter.push]⟩,
      ?_, ?_, ?_, ?_, ?_, ?_, ?_, ?_⟩ <;>
    simp [Op.apply, R1CS.push_scope, Counter.push, R1CS.num_constants, R1CS.num_public,
      R1CS.num_private, R1CS.num_constraints, R1CS.num_lookup_constraints, R1CS.num_nonzeros]
  | popScope n =>
    refine ⟨⟨[], by simp [Op.apply, R1CS.pop_scope]⟩,
      ⟨[], by simp [Op.apply, R1CS.pop_scope]⟩,
      ⟨[], by simp [Op.apply, R1CS.pop_scope]⟩,
      ⟨[], by simp [Op.apply, R1CS.pop_scope]⟩,
      ⟨[], by simp [Op.apply, R1CS.pop_scope]⟩,
      ⟨[], by simp [Op.apply, R1CS.pop_scope]⟩,
      ?_, ?_, ?_, ?_, ?_, ?_, ?_, ?_⟩ <;>
    simp [Op.apply, R1CS.pop_scope, R1CS.num_constants, R1CS.num_public,
      R1CS.num_private, R1CS.num_constraints, R1CS.num_lookup_constraints, R1CS.num_nonzeros]

/-- The triple `(0, 0, 0)` is a right identity for triple addition. -/
theorem addTriple_zero_right (t : Nat × Nat × Nat) : addTriple t (0, 0, 0) = t := by
  cases t with
  | mk a bc => cases bc with
    | mk b c => simp [addTriple]

/-- The triple `(0, 0, 0)` is a left identity for triple addition. -/
theorem addTriple_zero_left (t : Nat × Nat × Nat) : addTriple (0, 0, 0) t = t := by
  cases t with
  | mk a bc => cases bc with
    | mk b c => simp [addTriple]

/-- Running enforcement calls adds the summed nonzero triples onto the starting
aggregate. -/
theorem runEnforce_nonzeros [Field F] [DecidableEq F] (ops : List (EnforceOp F)) :
    ∀ s : R1CS F,
      (runEnforceOps s ops).num_nonzeros
        = addTriple s.num_nonzeros (sumTriples (ops.map EnforceOp.nnz)) := by
  induction ops with
  | nil =>
    intro s
    exact (addTriple_zero_right s.num_nonzeros).symm
  | cons op ops ih =>
    intro s
    have h1 : runEnforceOps s (op :: ops) = runEnforceOps (op.apply s) ops := rfl
    rw [h1, ih]
    cases op <;>
      simp [EnforceOp.apply, EnforceOp.nnz, sumTriples, R1CS.enforce, R1CS.enforce_lookup,
        R1CS.num_nonzeros, addTriple, Nat.add_assoc]

/-- C8: `enforce_lookup` adds its constraint's nonzero triple into the same
single global aggregate that `enforce` uses, so after any interleaving of the
two calls on a fresh system `num_nonzeros()` is the component-wise sum of the
nonzero triples of all plain and lookup constraints together. -/
theorem nonzeros_shared_aggregate [Field F] [DecidableEq F] :
    (∀ (s : R1CS F) (lc : LookupConstraint F),
        (s.enforce_lookup lc).num_nonzeros = addTriple s.num_nonzeros lc.num_nonzeros)
    ∧ (∀ (s : R1CS F) (c : Constraint F),
        (s.enforce c).num_nonzeros = addTriple s.num_nonzeros c.num_nonzeros)
    ∧ (∀ ops : List (EnforceOp F),
        (runEnforceOps R1CS.new ops).num_nonzeros = sumTriples (ops.map EnforceOp.nnz)) := by
  refine ⟨fun s lc => rfl, fun s c => rfl, ?_⟩
  intro ops
  rw [runEnforce_nonzeros]
  have h0 : (R1CS.new : R1CS F).num_nonzeros = (0, 0, 0) := rfl
  rw [h0, addTriple_zero_left]

/-- Evaluation of `nonzeros_shared_aggregate` at a concrete interleaving. -/
theorem nonzeros_shared_aggregate_inst :
    (runEnforceOps (R1CS.new : R1CS Fp)
        [EnforceOp.plain exCon, EnforceOp.lookup exLk]).num_nonzeros
      = sumTriples ([EnforceOp.plain exCon, EnforceOp.lookup exLk].map EnforceOp.nnz) :=
  nonzeros_shared_aggregate.2.2 [EnforceOp.plain exCon, EnforceOp.lookup exLk]

/-- Folding string append over a list from an initial string is the initial
string followed by the joined rendered elements. -/
theorem foldl_append_join {α : Type} (f : α → String) (l : List α) :
    ∀ init : String,
      l.foldl (fun out x => out ++ f x) init = init ++ String.join (l.map f) := by
  induction l with
  | nil =>
    intro init
    apply String.ext
    simp
  | cons x l ih =>
    intro init
    rw [List.foldl_cons, ih (init ++ f x)]
    apply String.ext
    simp

/-- C9: the textual rendering of a constraint system is exactly the
concatenation of the string forms of the constraints in order, then of the
lookup constraints in order, terminated by one trailing line break. -/
theorem display_concatenation [Field F] [DecidableEq F] (s : R1CS F)
    (fC : Constraint F → String) (fL : LookupConstraint F → String) :
    s.display fC fL =
      String.join (s.to_constraints.map fC)
        ++ String.join (s.to_lookup_constraints.map fL) ++ "\n" := by
  unfold R1CS.display
  rw [foldl_append_join, foldl_append_join]
  apply String.ext
  simp

/-- Evaluation of `display_concatenation` at a concrete system. -/
theorem display_concatenation_inst :
    (((R1CS.new : R1CS Fp).enforce exCon).enforce_lookup exLk).display
        (fun _ => "A*B=C;") (fun _ => "L;")
      = String.join (((((R1CS.new : R1CS Fp).enforce exCon).enforce_lookup
            exLk).to_constraints).map (fun _ => "A*B=C;"))
        ++ String.join (((((R1CS.new : R1CS Fp).enforce exCon).enforce_lookup
            exLk).to_lookup_constraints).map (fun _ => "L;"))
        ++ "\n" :=
  display_concatenation _ _ _

/-- Calling `new_public` increments `num_public` by exactly one. -/
theorem new_public_num (s : R1CS F) (v : F) :
    (s.new_public v).2.num_public = s.num_public + 1 := by
  simp [R1CS.new_public, R1CS.num_public]

/-- Calling `new_private` increments `num_private` by exactly one. -/
theorem new_private_num (s : R1CS F) (v : F) :
    (s.new_private v).2.num_private = s.num_private + 1 := by
  simp [R1CS.new_private, R1CS.num_private]

/-- A run of `new_public` calls tracks `num_public` exactly and returns, at
position `k`, the public variable with index `num_public + k`. -/
theorem run_new_publics_spec (vs : List F) :
    ∀ s : R1CS F,
      ((s.run_new_publics vs).1.num_public = s.num_public + vs.length)
      ∧ ∀ (k : Nat) (v : F), vs[k]? = some v →
          (s.run_new_publics vs).2[k]? = some (Variable.Public (s.num_public + k) v) := by
  induction vs with
  | nil =>
    intro s
    refine ⟨by simp [R1CS.run_new_publics], ?_⟩
    intro k v h
    simp at h
  | cons v0 vs ih =>
    intro s
    have hcons : s.run_new_publics (v0 :: vs) =
        (((s.new_public v0).2.run_new_publics vs).1,
          (s.new_public v0).1 :: ((s.new_public v0).2.run_new_publics vs).2) := rfl
    constructor
    · rw [hcons]
      show ((s.new_public v0).2.run_new_publics vs).1.num_public = _
      rw [(ih _).1, new_public_num]
      simp [Nat.add_assoc, Nat.add_comm]
    · intro k v h
      rw [hcons]
      cases k with
      | zero =>
        simp only [List.getElem?_cons_zero, Option.some.injEq] at h
        subst h
        show ((s.new_public v0).1 :: ((s.new_public v0).2.run_new_publics vs).2)[0]?
            = some (Variable.Public (s.num_public + 0) v0)
        rw [List.getElem?_cons_zero]
        simp [R1CS.new_public, R1CS.num_public]
      | succ k =>
        simp only [List.getElem?_cons_succ] at h
        show ((s.new_public v0).1 :: ((s.new_public v0).2.run_new_publics vs).2)[k + 1]?
            = some (Variable.Public (s.num_public + (k + 1)) v)
        rw [List.getElem?_cons_succ, (ih _).2 k v h, new_public_num]
        have harith : s.num_public + 1 + k = s.num_public + (k + 1) := by omega
        rw [harith]

/-- A run of `new_private` calls tracks `num_private` exactly and returns, at
position `k`, the private variable with index `num_private + k`. -/
theorem run_new_privates_spec (vs : List F) :
    ∀ s : R1CS F,
      ((s.run_new_privates vs).1.num_private = s.num_private + vs.length)
      ∧ ∀ (k : Nat) (v : F), vs[k]? = some v →
          (s.run_new_privates vs).2[k]? = some (Variable.Private (s.num_private + k) v) := by
  induction vs with
  | nil =>
    intro s
    refine ⟨by simp [R1CS.run_new_privates], ?_⟩
    intro k v h
    simp at h
  | cons v0 vs ih =>
    intro s
    have hcons : s.run_new_privates (v0 :: vs) =
        (((s.new_private v0).2.run_new_privates vs).1,
          (s.new_private v0).1 :: ((s.new_private v0).2.run_new_privates vs).2) := rfl
    constructor
    · rw [hcons]
      show ((s.new_private v0).2.run_new_privates vs).1.num_private = _
      rw [(ih _).1, new_private_num]
      simp [Nat.add_assoc, Nat.add_comm]
    · intro k v h
      rw [hcons]
      cases k with
      | zero =>
        simp only [List.getElem?_cons_zero, Option.some.injEq] at h
        subst h
        show ((s.new_private v0).1 :: ((s.new_private v0).2.run_new_privates vs).2)[0]?
            = some (Variable.Private (s.num_private + 0) v0)
        rw [List.getElem?_cons_zero]
        simp [R1CS.new_private, R1CS.num_private]
      | succ k =>
        simp only [List.getElem?_cons_succ] at h
        show ((s.new_private v0).1 :: ((s.new_private v0).2.run_new_privates vs).2)[k + 1]?
            = some (Variable.Private (s.num_private + (k + 1)) v)
        rw [List.getElem?_cons_succ, (ih _).2 k v h, new_private_num]
        have harith : s.num_private + 1 + k = s.num_private + (k + 1) := by omega
        rw [harith]

/-- C4: each `new_public` call returns the next public index and increments
`num_public` by one; on a fresh system the k-th call (0-indexed) returns index
`k + 1` (index 0 being the implicit one-variable). Analogously, the k-th
`new_private` call on a fresh system returns index `k` and `num_private`
tracks exactly. -/
theorem allocation_indexing [Field F] [DecidableEq F] :
    (∀ (s : R1CS F) (v : F),
        (s.new_public v).1 = Variable.Public s.num_public v
        ∧ (s.new_public v).2.num_public = s.num_public + 1
        ∧ (s.new_private v).1 = Variable.Private s.num_private v
        ∧ (s.new_private v).2.num_private = s.num_private + 1)
    ∧ (∀ (vs : List F) (k : Nat) (v : F), vs[k]? = some v →
        ((R1CS.new : R1CS F).run_new_publics vs).2[k]? = some (Variable.Public (k + 1) v))
    ∧ (∀ (vs : List F) (k : Nat) (v : F), vs[k]? = some v →
        ((R1CS.new : R1CS F).run_new_privates vs).2[k]? = some (Variable.Private k v))
    ∧ (∀ vs : List F, ((R1CS.new : R1CS F).run_new_publics vs).1.num_public = 1 + vs.length)
    ∧ (∀ vs : List F, ((R1CS.new : R1CS F).run_new_privates vs).1.num_private = vs.length) := by
  refine ⟨fun s v => ⟨rfl, new_public_num s v, rfl, new_private_num s v⟩, ?_, ?_, ?_, ?_⟩
  · intro vs k v h
    have hk := (run_new_publics_spec vs R1CS.new).2 k v h
    have h1 : (R1CS.new : R1CS F).num_public = 1 := rfl
    rw [hk, h1, Nat.add_comm 1 k]
  · intro vs k v h
    have hk := (run_new_privates_spec vs R1CS.new).2 k v h
    have h0 : (R1CS.new : R1CS F).num_private = 0 := rfl
    rw [hk, h0, Nat.zero_add]
  · intro vs
    have hk := (run_new_publics_spec vs (R1CS.new : R1CS F)).1
    have h1 : (R1CS.new : R1CS F).num_public = 1 := rfl
    rw [hk, h1]
  · intro vs
    have hk := (run_new_privates_spec vs (R1CS.new : R1CS F)).1
    have h0 : (R1CS.new : R1CS F).num_private = 0 := rfl
    rw [hk, h0, Nat.zero_add]

/-- Evaluation of `allocation_indexing`: on a fresh system, the second (k = 1)
`new_public` call returns index 2 and the second `new_private` call returns
index 1. -/
theorem allocation_indexing_inst :
    ((R1CS.new : R1CS Fp).run_new_publics [2, 3]).2[1]? = some (Variable.Public 2 3)
    ∧ ((R1CS.new : R1CS Fp).run_new_privates [2, 3]).2[1]? = some (Variable.Private 1 3)
    ∧ ((R1CS.new : R1CS Fp).run_new_publics [2, 3]).1.num_public = 1 + 2 :=
  ⟨allocation_indexing.2.1 [2, 3] 1 3 (by decide),
   allocation_indexing.2.2.1 [2, 3] 1 3 (by decide),
   allocation_indexing.2.2.2.1 [2, 3]⟩

/-- Evaluation of `op_monotone` at a concrete operation and system. -/
theorem op_monotone_inst :
    (R1CS.new : R1CS Fp).num_lookup_constraints
      ≤ ((Op.enforceLookupOne exLk).apply (R1CS.new : R1CS Fp)).num_lookup_constraints
    ∧ (R1CS.new : R1CS Fp).num_nonzeros.1
      ≤ ((Op.enforceLookupOne exLk).apply (R1CS.new : R1CS Fp)).num_nonzeros.1 :=
  ⟨(op_monotone (Op.enforceLookupOne exLk) R1CS.new).2.2.2.2.2.2.2.2.2.2.1,
   (op_monotone (Op.enforceLookupOne exLk) R1CS.new).2.2.2.2.2.2.2.2.2.2.2.1⟩

end Snarkvm
